import Mathlib

/-!
Shallow embedding of the streaming core of the Market-Data-Service repository:
the data-access layer (`app/services/data_access.py`), the price service and
polling scheduler (`app/services/market_data.py`), the Kafka producer
(`app/services/kafka_producer.py`) and the moving-average consumer
(`app/services/kafka_consumer.py`).

Modelling conventions:
  - prices are rationals (`ℚ`), timestamps are natural numbers (seconds);
  - the relational store is a `Store` of four lists, new rows consed at the
    front; SQL `ORDER BY timestamp DESC` is an explicit insertion sort;
  - the external provider call is a `ProviderResult` parameter, the Kafka
    producer's availability/success is a `Bool` parameter, and the stdlib
    timestamp parse in the consumer is an oracle parameter whose `none`
    outcome is the raised-and-caught `ValueError`;
  - Python truthiness in the consumer's malformed-event guard is modelled
    exactly (`None`, empty string and `0` are falsy);
  - raw-response ids are allocated as the current table length.
-/

namespace MarketData

/-- Python `str.upper()`, modelled at the character-list level (the symbols of
this system are Basic Latin, where this agrees with `String.toUpper`). -/
def pyUpper (s : String) : String :=
  ⟨s.data.map Char.toUpper⟩

structure RawMarketData where
  id : Nat
  symbol : String
  provider : String
deriving Repr, DecidableEq

structure ProcessedPricePoint where
  symbol : String
  price : ℚ
  timestamp : Nat
  provider : String
  rawResponseId : Nat
deriving Repr, DecidableEq

structure MovingAverage where
  symbol : String
  movingAverage : ℚ
  period : Nat
  timestamp : Nat
deriving Repr, DecidableEq

structure PollingJobConfig where
  jobId : String
  symbols : List String
  interval : Nat
  provider : String
  status : String
  lastRun : Option Nat
  nextRun : Option Nat
  errorMessage : Option String
deriving Repr, DecidableEq

structure Store where
  rawMarketData : List RawMarketData
  pricePoints : List ProcessedPricePoint
  movingAverages : List MovingAverage
  pollingJobs : List PollingJobConfig
deriving Repr, DecidableEq

namespace DataAccessLayer

/-- `save_raw_market_data`: insert a raw provider response (symbol uppercased). -/
def saveRawMarketData (st : Store) (symbol provider : String) : Store × RawMarketData :=
  let raw : RawMarketData := ⟨st.rawMarketData.length, pyUpper symbol, provider⟩
  ({ st with rawMarketData := raw :: st.rawMarketData }, raw)

/-- `save_price_point`: insert a processed price point (symbol uppercased). -/
def savePricePoint (st : Store) (symbol : String) (price : ℚ) (timestamp : Nat)
    (provider : String) (rawResponseId : Nat) : Store × ProcessedPricePoint :=
  let p : ProcessedPricePoint := ⟨pyUpper symbol, price, timestamp, provider, rawResponseId⟩
  ({ st with pricePoints := p :: st.pricePoints }, p)

/-- The WHERE clause shared by the price-point queries: filter on the uppercased
symbol and, when given, on the provider. -/
def pointsFor (pts : List ProcessedPricePoint) (symbol : String)
    (provider : Option String) : List ProcessedPricePoint :=
  pts.filter (fun p =>
    p.symbol == pyUpper symbol &&
      (match provider with
       | none => true
       | some pr => p.provider == pr))

/-- Insert into a list kept in decreasing timestamp order (stable). -/
def insertByTsDesc (p : ProcessedPricePoint) :
    List ProcessedPricePoint → List ProcessedPricePoint
  | [] => [p]
  | q :: qs => if q.timestamp < p.timestamp then p :: q :: qs else q :: insertByTsDesc p qs

/-- `ORDER BY timestamp DESC` as a stable insertion sort. -/
def sortByTsDesc : List ProcessedPricePoint → List ProcessedPricePoint
  | [] => []
  | p :: ps => insertByTsDesc p (sortByTsDesc ps)

/-- `get_latest_price`: newest matching price point, if any. -/
def getLatestPricePoint (pts : List ProcessedPricePoint) (symbol : String)
    (provider : Option String) : Option ProcessedPricePoint :=
  (sortByTsDesc (pointsFor pts symbol provider)).head?

/-- `get_last_n_prices`: the `n` newest price points for a symbol. -/
def getLastNPrices (pts : List ProcessedPricePoint) (symbol : String) (n : Nat) :
    List ProcessedPricePoint :=
  (sortByTsDesc (pointsFor pts symbol none)).take n

/-- `save_moving_average`: append a moving-average row stamped with now. -/
def saveMovingAverage (st : Store) (symbol : String) (value : ℚ) (period : Nat)
    (now : Nat) : Store × MovingAverage :=
  let ma : MovingAverage := ⟨pyUpper symbol, value, period, now⟩
  ({ st with movingAverages := ma :: st.movingAverages }, ma)

/-- `save_polling_job`: insert a job row with status `active` and `next_run = now`. -/
def savePollingJob (st : Store) (jobId : String) (symbols : List String)
    (interval : Nat) (provider : String) (now : Nat) : Store :=
  { st with pollingJobs :=
      ⟨jobId, symbols, interval, provider, "active", none, some now, none⟩ :: st.pollingJobs }

/-- `get_polling_job`: the job row with the given id, if any. -/
def getPollingJob (jobs : List PollingJobConfig) (jobId : String) :
    Option PollingJobConfig :=
  jobs.find? (fun j => j.jobId == jobId)

/-- `update_polling_job_status`: set the status, and the error message when one
is given and truthy (a non-empty string); returns whether the job was found. -/
def updatePollingJobStatus (st : Store) (jobId status : String)
    (errorMessage : Option String) : Store × Bool :=
  match getPollingJob st.pollingJobs jobId with
  | none => (st, false)
  | some _ =>
    ({ st with pollingJobs := st.pollingJobs.map (fun j =>
        if j.jobId == jobId then
          { j with status := status,
                   errorMessage :=
                     match errorMessage with
                     | some m => if m.isEmpty then j.errorMessage else some m
                     | none => j.errorMessage }
        else j) }, true)

/-- `update_polling_job_run_time`: set last_run/next_run; returns whether found. -/
def updatePollingJobRunTime (st : Store) (jobId : String) (lastRun nextRun : Nat) :
    Store × Bool :=
  match getPollingJob st.pollingJobs jobId with
  | none => (st, false)
  | some _ =>
    ({ st with pollingJobs := st.pollingJobs.map (fun j =>
        if j.jobId == jobId then { j with lastRun := some lastRun, nextRun := some nextRun }
        else j) }, true)

end DataAccessLayer

open DataAccessLayer

/-- Outcome of one provider fetch (`MarketDataProvider.get_latest_price`):
either a price and its fetch timestamp, or a raised error message. -/
inductive ProviderResult where
  | ok (price : ℚ) (timestamp : Nat)
  | err (msg : String)
deriving Repr, DecidableEq

/-- A raw price event as built by `KafkaProducer.publish_price_event`. -/
structure PriceEvent where
  symbol : String
  price : ℚ
  timestamp : Nat
  source : String
  rawResponseId : Nat
deriving Repr, DecidableEq

/-- `KafkaProducer.publish_price_event`: when the producer exists and the
produce call does not raise (`producerOk`), the event reaches the channel and
the call returns true; otherwise the failure is caught, logged and false is
returned — the function itself never raises. -/
def publishPriceEvent (producerOk : Bool) (symbol : String) (price : ℚ)
    (timestamp : Nat) (provider : String) (rawResponseId : Nat) :
    Option PriceEvent × Bool :=
  if producerOk then
    (some ⟨pyUpper symbol, price, timestamp, provider, rawResponseId⟩, true)
  else (none, false)

/-- The dict `MarketDataService.get_latest_price` returns. -/
structure PriceData where
  symbol : String
  price : ℚ
  timestamp : Nat
  provider : String
  source : String
deriving Repr, DecidableEq

/-- Observable outcome of one `get_latest_price` call: the returned dict or the
raised `ValueError` message, the store afterwards, whether the provider was
invoked, whether a publish was attempted, and the events that reached the
channel. -/
structure GetPriceOutcome where
  result : Except String PriceData
  store : Store
  providerCalled : Bool
  publishAttempted : Bool
  publishedEvents : List PriceEvent
deriving Repr

namespace MarketDataService

/-- The cache check at the top of `get_latest_price`: only when `use_cache`
and a db session are present, and only if the newest stored point for the
(uppercased symbol, provider) pair is younger than 5 minutes (300 s). -/
def cacheLookup (st : Store) (symbol providerName : String)
    (hasDb useCache : Bool) (now : Nat) : Option ProcessedPricePoint :=
  match (if useCache && hasDb then
           getLatestPricePoint st.pricePoints (pyUpper symbol) (some providerName)
         else none) with
  | some p => if now < p.timestamp + 300 then some p else none
  | none => none

/-- The fresh-fetch branch of `get_latest_price`: call the provider once; on
failure re-raise as a descriptive `ValueError` with nothing persisted or
published; on success persist the raw response and the derived price point
(when a db session is present) and attempt the event publish. -/
def fetchFresh (st : Store) (sym providerName : String) (hasDb : Bool)
    (fetch : ProviderResult) (producerOk : Bool) : GetPriceOutcome :=
  match fetch with
  | .err msg =>
    { result := .error ("Failed to get price for " ++ sym ++ ": " ++ msg),
      store := st, providerCalled := true, publishAttempted := false,
      publishedEvents := [] }
  | .ok price ts =>
    if hasDb then
      let res1 := saveRawMarketData st sym providerName
      let res2 := savePricePoint res1.1 sym price ts providerName res1.2.id
      let pub := publishPriceEvent producerOk sym price ts providerName res1.2.id
      { result := .ok ⟨sym, price, ts, providerName, "live"⟩,
        store := res2.1, providerCalled := true, publishAttempted := true,
        publishedEvents := pub.1.toList }
    else
      { result := .ok ⟨sym, price, ts, providerName, "live"⟩,
        store := st, providerCalled := true, publishAttempted := false,
        publishedEvents := [] }

/-- `MarketDataService.get_latest_price`: uppercase the symbol, serve from the
cache when the freshness check passes, otherwise fetch fresh. -/
def getLatestPrice (st : Store) (symbol providerName : String)
    (hasDb useCache : Bool) (now : Nat) (fetch : ProviderResult)
    (producerOk : Bool) : GetPriceOutcome :=
  let sym := pyUpper symbol
  match cacheLookup st symbol providerName hasDb useCache now with
  | some p =>
    { result := .ok ⟨p.symbol, p.price, p.timestamp, p.provider, "cache"⟩,
      store := st, providerCalled := false, publishAttempted := false,
      publishedEvents := [] }
  | none => fetchFresh st sym providerName hasDb fetch producerOk

/-- One entry of the in-memory `self.polling_jobs` dict (the fields the
worker loop reads and writes). -/
structure MemJob where
  jobId : String
  symbols : List String
  interval : Nat
  provider : String
  status : String
deriving Repr, DecidableEq

/-- Accumulator for the per-symbol pass of one polling tick; `attempted` and
`failed` are ghost logs of which symbols were fetched and which raised. -/
structure SymbolPassState where
  store : Store
  attempted : List String
  failed : List String
deriving Repr, DecidableEq

/-- One iteration of the worker's `for symbol in job["symbols"]` loop: invoke
`get_latest_price` with `use_cache = False`; on error, catch it and write
status `error` plus the error message to the stored job. -/
def pollSymbolsStep (jobId providerName : String) (now : Nat) (producerOk : Bool)
    (fetch : String → ProviderResult) (acc : SymbolPassState) (symbol : String) :
    SymbolPassState :=
  let out := getLatestPrice acc.store symbol providerName true false now
      (fetch symbol) producerOk
  match out.result with
  | .ok _ =>
    { store := out.store, attempted := acc.attempted ++ [symbol], failed := acc.failed }
  | .error msg =>
    { store := (updatePollingJobStatus out.store jobId "error" (some msg)).1,
      attempted := acc.attempted ++ [symbol], failed := acc.failed ++ [symbol] }

/-- The whole per-symbol pass of one polling tick. -/
def pollSymbolsPass (st : Store) (jobId providerName : String)
    (symbols : List String) (now : Nat) (producerOk : Bool)
    (fetch : String → ProviderResult) : SymbolPassState :=
  symbols.foldl (pollSymbolsStep jobId providerName now producerOk fetch)
    ⟨st, [], []⟩

/-- The body of one polling tick: record the run times in the store, then run
the per-symbol pass. -/
def tickPass (st : Store) (job : MemJob) (now : Nat) (producerOk : Bool)
    (fetch : String → ProviderResult) : SymbolPassState :=
  pollSymbolsPass ((updatePollingJobRunTime st job.jobId now (now + job.interval)).1)
    job.jobId job.provider job.symbols now producerOk fetch

/-- One non-structural iteration of `_polling_worker`'s while loop: if the
in-memory status is still `active`, run the tick body. Per-symbol failures are
caught inside the loop, so the in-memory job (whose `status` gates the next
iteration) is returned unchanged; only the structural `except` branch — not
modelled here — sets the in-memory status to `error` and breaks. -/
def pollingTick (st : Store) (job : MemJob) (now : Nat) (producerOk : Bool)
    (fetch : String → ProviderResult) : Store × MemJob :=
  if job.status == "active" then
    ((tickPass st job now producerOk fetch).store, job)
  else (st, job)

/-- `MarketDataService.stop_polling_job`: with a db session the stored job (if
any) is set to `stopped` unconditionally; the return value is true when the
job is in the in-memory dict, and otherwise `db is not None`. -/
def stopPollingJob (st : Store) (memJobs : List MemJob) (jobId : String)
    (hasDb : Bool) : Store × List MemJob × Bool :=
  let st1 := if hasDb then (updatePollingJobStatus st jobId "stopped" none).1 else st
  if memJobs.any (fun j => j.jobId == jobId) then
    (st1, memJobs.map (fun j =>
      if j.jobId == jobId then { j with status := "stopped" } else j), true)
  else
    (st1, memJobs, hasDb)

/-- Outcome of `start_polling_job` reached through the poll endpoint. -/
structure StartPollOutcome where
  result : Except String String
  store : Store
  memJobs : List MarketDataService.MemJob
  taskRegistered : Bool
deriving Repr

/-- `MarketDataService.start_polling_job`: no validation of its own — persist
the job row (when a db session is present), register the in-memory job config
and the background worker task, and return the generated job id. -/
def startPollingJob (st : Store) (memJobs : List MemJob) (jobId : String)
    (symbols : List String) (interval : Nat) (providerName : String)
    (hasDb : Bool) (now : Nat) : StartPollOutcome :=
  let st1 := if hasDb then savePollingJob st jobId symbols interval providerName now else st
  { result := .ok jobId, store := st1,
    memJobs := ⟨jobId, symbols, interval, providerName, "active"⟩ :: memJobs,
    taskRegistered := true }

end MarketDataService

/-- The `PollRequest` pydantic field constraint on one symbol
(non-empty, at most 10 characters, alphabetic). -/
def validSymbolFormat (s : String) : Bool :=
  !s.isEmpty && s.length ≤ 10 && s.toList.all Char.isAlpha

/-- `PollRequest` body validation: 1–10 symbols, each well-formed, and an
interval within [30, 3600]. -/
def pollRequestValid (symbols : List String) (interval : Nat) : Bool :=
  1 ≤ symbols.length && symbols.length ≤ 10 &&
    30 ≤ interval && interval ≤ 3600 && symbols.all validSymbolFormat

/-- The POST /prices/poll endpoint: FastAPI validates the `PollRequest` body
(which also uppercases the symbols) before the handler body runs, so an
invalid interval is rejected before any persistence or task registration;
otherwise the handler calls `start_polling_job`. -/
def startPollingEndpoint (st : Store) (memJobs : List MarketDataService.MemJob)
    (jobId : String) (symbols : List String) (interval : Nat)
    (providerName : String) (hasDb : Bool) (now : Nat) :
    MarketDataService.StartPollOutcome :=
  if pollRequestValid symbols interval then
    MarketDataService.startPollingJob st memJobs jobId
      (symbols.map pyUpper) interval providerName hasDb now
  else
    { result := .error "Invalid request parameters", store := st,
      memJobs := memJobs, taskRegistered := false }

/-- A decoded raw price event as seen by the consumer, each field optional
because `message_data.get` can return None. The timestamp is kept as its
string form; the parse applied to it is modelled by an oracle (see
`processPriceEvent`). -/
structure PriceEventMsg where
  symbol : Option String
  price : Option ℚ
  timestamp : Option String
deriving Repr, DecidableEq

/-- A derived moving-average event as built by `_publish_moving_average`. -/
structure MovingAverageEvent where
  symbol : String
  movingAverage : ℚ
  period : Nat
  timestamp : String
  calculatedAt : Nat
deriving Repr, DecidableEq

namespace MovingAverageConsumer

/-- `MovingAverageConsumer._calculate_moving_average`: fetch the 5 newest
price points for the symbol; below 5 return None, otherwise sum/len. -/
def calculateMovingAverage (pts : List ProcessedPricePoint) (symbol : String) :
    Option ℚ :=
  let recent := getLastNPrices pts symbol 5
  if recent.length < 5 then none
  else some ((recent.map (fun p => p.price)).sum / (recent.length : ℚ))

/-- The truthiness guard `if not all([symbol, price, timestamp_str])`:
None, the empty string and a price of exactly 0 are all falsy. -/
def msgTruthy (msg : PriceEventMsg) : Bool :=
  match msg.symbol, msg.price, msg.timestamp with
  | some sym, some price, some ts => !sym.isEmpty && !(price == 0) && !ts.isEmpty
  | _, _, _ => false

/-- `MovingAverageConsumer._process_price_event`: drop events failing the
truthiness guard; then parse the timestamp with
`datetime.fromisoformat(timestamp_str.replace('Z', '+00:00'))` — the Python
stdlib parser is an external collaborator, modelled by the oracle `parseIso`
whose `some iso` result is the parsed datetime as re-serialised by
`isoformat()` into the derived event, and whose `none` result is the raised
`ValueError`, caught by the function's outer handler with nothing saved or
published; on a successful parse recompute the 5-point average from the
store and, when one is available, append a MovingAverage row and publish the
derived event. Returns the store afterwards and the derived events
published. -/
def processPriceEvent (st : Store) (msg : PriceEventMsg) (now : Nat)
    (parseIso : String → Option String) : Store × List MovingAverageEvent :=
  if msgTruthy msg then
    match msg.symbol, msg.timestamp with
    | some sym, some ts =>
      match parseIso ts with
      | none => (st, [])
      | some iso =>
        match calculateMovingAverage st.pricePoints sym with
        | none => (st, [])
        | some ma =>
          ((saveMovingAverage st sym ma 5 now).1, [⟨sym, ma, 5, iso, now⟩])
    | _, _ => (st, [])
  else (st, [])

end MovingAverageConsumer

/-- The stored job with this id exists, has status `error` and carries an
error message. -/
def jobErrored (jobs : List PollingJobConfig) (jobId : String) : Prop :=
  ∃ j, DataAccessLayer.getPollingJob jobs jobId = some j ∧
    j.status = "error" ∧ j.errorMessage ≠ none

/-! Concrete fixtures used to evaluate the verified statements. -/

/-- A stored price point one hundred seconds old at `now = 1100`. -/
def c1Point : ProcessedPricePoint := ⟨"AAPL", 100, 1000, "alpha_vantage", 0⟩

/-- A store holding exactly `c1Point` and its raw response. -/
def c1Store : Store := ⟨[⟨0, "AAPL", "alpha_vantage"⟩], [c1Point], [], []⟩

/-- A price point for AAPL with the given value and timestamp. -/
def maPoint (v : ℚ) (t : Nat) : ProcessedPricePoint := ⟨"AAPL", v, t, "alpha_vantage", 0⟩

/-- Exactly five points with values 100, 101, 99, 102, 98, delivered in order. -/
def maStore5 : List ProcessedPricePoint :=
  [maPoint 100 10, maPoint 101 20, maPoint 99 30, maPoint 102 40, maPoint 98 50]

/-- A store with only four points for AAPL. -/
def c3Store : Store :=
  ⟨[], [maPoint 100 10, maPoint 101 20, maPoint 99 30, maPoint 102 40], [], []⟩

/-- An active stored polling job over two symbols. -/
def c4JobRow : PollingJobConfig :=
  ⟨"J1", ["AAA", "BBB"], 60, "alpha_vantage", "active", none, some 0, none⟩

/-- A store holding only `c4JobRow`. -/
def c4Store : Store := ⟨[], [], [], [c4JobRow]⟩

/-- The in-memory counterpart of `c4JobRow`. -/
def c4Job : MarketDataService.MemJob := ⟨"J1", ["AAA", "BBB"], 60, "alpha_vantage", "active"⟩

/-- A provider for which the symbol AAA fails and every other symbol succeeds. -/
def c4Fetch : String → ProviderResult :=
  fun s => if s == "AAA" then .err "boom" else .ok 50 500

/-- A store holding one active polling job J2. -/
def c5Store : Store :=
  ⟨[], [], [], [⟨"J2", ["AAA"], 60, "alpha_vantage", "active", none, some 0, none⟩]⟩

/-- The in-memory registry holding the same job J2. -/
def c5Mem : List MarketDataService.MemJob := [⟨"J2", ["AAA"], 60, "alpha_vantage", "active"⟩]

/-- A store whose price points are exactly `maStore5`. -/
def c9Store : Store := ⟨[], maStore5, [], []⟩

/-- A concrete parse oracle that accepts the fixture timestamp (for which the
stdlib parse succeeds and round-trips) and rejects everything else. -/
def isoParse : String → Option String :=
  fun s => if s == "2025-01-01T00:00:00" then some "2025-01-01T00:00:00" else none

/-- The empty store. -/
def emptyStore : Store := ⟨[], [], [], []⟩

end MarketData

namespace MarketData

open DataAccessLayer MarketDataService MovingAverageConsumer

/-! General lemmas about the embedding, shared by the claim theorems. -/

/-- `Char.toUpper` unfolded into its branch form. -/
theorem charToUpper_eq (c : Char) :
    c.toUpper = if c.toNat ≥ 97 ∧ c.toNat ≤ 122 then Char.ofNat (c.toNat - 32) else c := rfl

/-- `Char.toUpper` is idempotent. -/
theorem charToUpper_idem (c : Char) : c.toUpper.toUpper = c.toUpper := by
  rw [charToUpper_eq c]
  by_cases h : c.toNat ≥ 97 ∧ c.toNat ≤ 122
  · rw [if_pos h, charToUpper_eq]
    have ht : (Char.ofNat (c.toNat - 32)).toNat = c.toNat - 32 := by
      rw [Char.ofNat, dif_pos (Or.inl (by omega))]
      rfl
    rw [ht, if_neg (by omega)]
  · rw [if_neg h, charToUpper_eq, if_neg h]

/-- Uppercasing is idempotent, so the service-level and DAL-level
normalisations compose to a single one. -/
theorem pyUpper_idem (s : String) : pyUpper (pyUpper s) = pyUpper s := by
  simp [pyUpper, List.map_map, Function.comp_def, charToUpper_idem]

/-- Every path through the fresh-fetch branch invokes the provider. -/
theorem fetchFresh_providerCalled (st : Store) (sym pn : String) (hasDb : Bool)
    (fetch : ProviderResult) (producerOk : Bool) :
    (fetchFresh st sym pn hasDb fetch producerOk).providerCalled = true := by
  cases fetch <;> cases hasDb <;> simp [fetchFresh]

theorem insertByTsDesc_length (p : ProcessedPricePoint) (l : List ProcessedPricePoint) :
    (insertByTsDesc p l).length = l.length + 1 := by
  induction l with
  | nil => rfl
  | cons q qs ih =>
    simp only [insertByTsDesc]
    split <;> simp [ih]

theorem sortByTsDesc_length (l : List ProcessedPricePoint) :
    (sortByTsDesc l).length = l.length := by
  induction l with
  | nil => rfl
  | cons p ps ih => simp [sortByTsDesc, insertByTsDesc_length, ih]

/-- With fewer than five matching points the consumer computes no average. -/
theorem calculateMovingAverage_eq_none (pts : List ProcessedPricePoint) (sym : String)
    (h : (pointsFor pts sym none).length < 5) :
    calculateMovingAverage pts sym = none := by
  unfold calculateMovingAverage getLastNPrices
  have hlen : (sortByTsDesc (pointsFor pts sym none)).length < 5 := by
    rw [sortByTsDesc_length]
    exact h
  simp [List.length_take, hlen, inf_lt_iff]

/-- `find?` by job id commutes with a job-id-preserving row rewrite. -/
theorem find?_jobId_map (l : List PollingJobConfig) (jobId : String)
    (g : PollingJobConfig → PollingJobConfig) (hg : ∀ j, (g j).jobId = j.jobId) :
    (l.map g).find? (fun j => j.jobId == jobId) =
      (l.find? (fun j => j.jobId == jobId)).map g := by
  induction l with
  | nil => rfl
  | cons j js ih =>
    simp only [List.map_cons, List.find?_cons, hg j]
    cases h : (j.jobId == jobId) <;> simp [h, ih]

/-- Effect of `update_polling_job_status` on the row it finds. -/
theorem updatePollingJobStatus_found (st : Store) (jobId status : String)
    (em : Option String) (j : PollingJobConfig)
    (hfound : getPollingJob st.pollingJobs jobId = some j) :
    getPollingJob (updatePollingJobStatus st jobId status em).1.pollingJobs jobId =
      some { j with status := status,
                    errorMessage :=
                      match em with
                      | some m => if m.isEmpty then j.errorMessage else some m
                      | none => j.errorMessage } := by
  unfold updatePollingJobStatus
  rw [hfound]
  simp only [getPollingJob] at hfound ⊢
  rw [find?_jobId_map _ _ _ (by intro x; by_cases hx : (x.jobId == jobId) = true <;> simp [hx])]
  rw [hfound]
  have hj : (j.jobId == jobId) = true :=
    @List.find?_some _ (fun x => x.jobId == jobId) j st.pollingJobs hfound
  have hj2 : j.jobId = jobId := by simpa using hj
  simp [hj2]

theorem updatePollingJobStatus_isSome (st : Store) (jobId status : String)
    (em : Option String) (h : (getPollingJob st.pollingJobs jobId).isSome) :
    (getPollingJob (updatePollingJobStatus st jobId status em).1.pollingJobs jobId).isSome := by
  obtain ⟨j, hj⟩ := Option.isSome_iff_exists.mp h
  rw [updatePollingJobStatus_found st jobId status em j hj]
  rfl

/-- Effect of `update_polling_job_run_time` on the row it finds. -/
theorem updatePollingJobRunTime_found (st : Store) (jobId : String)
    (lastRun nextRun : Nat) (j : PollingJobConfig)
    (hfound : getPollingJob st.pollingJobs jobId = some j) :
    getPollingJob (updatePollingJobRunTime st jobId lastRun nextRun).1.pollingJobs jobId =
      some { j with lastRun := some lastRun, nextRun := some nextRun } := by
  unfold updatePollingJobRunTime
  rw [hfound]
  simp only [getPollingJob] at hfound ⊢
  rw [find?_jobId_map _ _ _ (by intro x; by_cases hx : (x.jobId == jobId) = true <;> simp [hx])]
  rw [hfound]
  have hj : (j.jobId == jobId) = true :=
    @List.find?_some _ (fun x => x.jobId == jobId) j st.pollingJobs hfound
  have hj2 : j.jobId = jobId := by simpa using hj
  simp [hj2]

theorem updatePollingJobRunTime_isSome (st : Store) (jobId : String)
    (lastRun nextRun : Nat) (h : (getPollingJob st.pollingJobs jobId).isSome) :
    (getPollingJob (updatePollingJobRunTime st jobId lastRun nextRun).1.pollingJobs jobId).isSome := by
  obtain ⟨j, hj⟩ := Option.isSome_iff_exists.mp h
  rw [updatePollingJobRunTime_found st jobId lastRun nextRun j hj]
  rfl

/-- The `ValueError` message raised on a per-symbol fetch failure is never the
empty string, so the DAL's truthiness guard records it. -/
theorem failMsg_isEmpty_false (sym m : String) :
    ("Failed to get price for " ++ sym ++ ": " ++ m).isEmpty = false := by
  rw [Bool.eq_false_iff, Ne, String.isEmpty_iff]
  intro h
  have hlen := congrArg String.length h
  rw [String.length_append, String.length_append, String.length_append] at hlen
  have h1 : ("Failed to get price for ").length = 24 := rfl
  have h2 : (": ").length = 2 := rfl
  have h0 : ("" : String).length = 0 := rfl
  rw [h1, h2, h0] at hlen
  omega

/-- Writing status `error` with a non-empty message puts the stored job into
the errored state. -/
theorem updateStatusError_jobErrored (st : Store) (jobId m : String)
    (hex : (getPollingJob st.pollingJobs jobId).isSome) (hm : m.isEmpty = false) :
    jobErrored (updatePollingJobStatus st jobId "error" (some m)).1.pollingJobs jobId := by
  obtain ⟨j, hj⟩ := Option.isSome_iff_exists.mp hex
  refine ⟨_, updatePollingJobStatus_found st jobId "error" (some m) j hj, rfl, ?_⟩
  simp [hm]

/-- A successful per-symbol step only writes price data: the job table is
untouched, the symbol is logged as attempted, and no failure is recorded. -/
theorem pollSymbolsStep_ok_facts (jobId pn : String) (now : Nat) (pub : Bool)
    (fetch : String → ProviderResult) (acc : SymbolPassState) (s : String)
    (p : ℚ) (t : Nat) (h : fetch s = .ok p t) :
    (pollSymbolsStep jobId pn now pub fetch acc s).store.pollingJobs = acc.store.pollingJobs
    ∧ (pollSymbolsStep jobId pn now pub fetch acc s).attempted = acc.attempted ++ [s]
    ∧ (pollSymbolsStep jobId pn now pub fetch acc s).failed = acc.failed := by
  simp [pollSymbolsStep, getLatestPrice, cacheLookup, fetchFresh, h,
    saveRawMarketData, savePricePoint]

/-- A failing per-symbol step leaves the price data alone and writes status
`error` with the failure message to the stored job. -/
theorem pollSymbolsStep_err_facts (jobId pn : String) (now : Nat) (pub : Bool)
    (fetch : String → ProviderResult) (acc : SymbolPassState) (s m : String)
    (h : fetch s = .err m) :
    pollSymbolsStep jobId pn now pub fetch acc s =
      { store := (updatePollingJobStatus acc.store jobId "error"
            (some ("Failed to get price for " ++ pyUpper s ++ ": " ++ m))).1,
        attempted := acc.attempted ++ [s], failed := acc.failed ++ [s] } := by
  simp [pollSymbolsStep, getLatestPrice, cacheLookup, fetchFresh, h]

/-- Invariant of the per-symbol pass: the stored job survives, every symbol is
attempted, and once any symbol has failed the stored job carries status
`error` with an error message. -/
theorem pollSymbolsPass_invariant (jobId pn : String) (now : Nat) (pub : Bool)
    (fetch : String → ProviderResult) (symbols : List String) (acc : SymbolPassState)
    (hex : (getPollingJob acc.store.pollingJobs jobId).isSome)
    (herr : acc.failed ≠ [] → jobErrored acc.store.pollingJobs jobId) :
    (getPollingJob (symbols.foldl (pollSymbolsStep jobId pn now pub fetch) acc).store.pollingJobs jobId).isSome
    ∧ ((symbols.foldl (pollSymbolsStep jobId pn now pub fetch) acc).failed ≠ [] →
        jobErrored (symbols.foldl (pollSymbolsStep jobId pn now pub fetch) acc).store.pollingJobs jobId)
    ∧ (symbols.foldl (pollSymbolsStep jobId pn now pub fetch) acc).attempted =
        acc.attempted ++ symbols := by
  induction symbols generalizing acc with
  | nil => exact ⟨hex, herr, by simp⟩
  | cons s ss ih =>
    rw [List.foldl_cons]
    cases hf : fetch s with
    | ok p t =>
      obtain ⟨hjobs, hatt, hfail⟩ := pollSymbolsStep_ok_facts jobId pn now pub fetch acc s p t hf
      have hres := ih (pollSymbolsStep jobId pn now pub fetch acc s)
        (by rw [hjobs]; exact hex) (by rw [hjobs, hfail]; exact herr)
      refine ⟨hres.1, hres.2.1, ?_⟩
      rw [hres.2.2, hatt, List.append_assoc]
      rfl
    | err m =>
      rw [pollSymbolsStep_err_facts jobId pn now pub fetch acc s m hf]
      have hex2 : (getPollingJob ((updatePollingJobStatus acc.store jobId "error"
          (some ("Failed to get price for " ++ pyUpper s ++ ": " ++ m))).1).pollingJobs jobId).isSome :=
        updatePollingJobStatus_isSome _ _ _ _ hex
      have herr2 := updateStatusError_jobErrored acc.store jobId _ hex
        (failMsg_isEmpty_false (pyUpper s) m)
      have hres := ih ⟨(updatePollingJobStatus acc.store jobId "error"
          (some ("Failed to get price for " ++ pyUpper s ++ ": " ++ m))).1,
        acc.attempted ++ [s], acc.failed ++ [s]⟩ hex2 (fun _ => herr2)
      refine ⟨hres.1, hres.2.1, ?_⟩
      rw [hres.2.2]
      simp

/-- After `update_polling_job_status`, every stored row with the target id
carries the written status. -/
theorem updatePollingJobStatus_rows (st : Store) (jobId status : String)
    (em : Option String) (j : PollingJobConfig)
    (hj : j ∈ (updatePollingJobStatus st jobId status em).1.pollingJobs)
    (hid : j.jobId = jobId) : j.status = status := by
  unfold updatePollingJobStatus at hj
  cases hfind : getPollingJob st.pollingJobs jobId with
  | none =>
    rw [hfind] at hj
    simp only at hj
    rw [getPollingJob, List.find?_eq_none] at hfind
    exact absurd (by simp [hid]) (hfind j hj)
  | some j0 =>
    rw [hfind] at hj
    simp only [List.mem_map] at hj
    obtain ⟨a, ha, hae⟩ := hj
    by_cases hcase : (a.jobId == jobId) = true
    · rw [if_pos hcase] at hae
      rw [← hae]
    · rw [if_neg hcase] at hae
      subst hae
      simp [hid] at hcase

end MarketData

namespace MarketData

open DataAccessLayer MarketDataService MovingAverageConsumer

/-! Claim theorems. -/

/-- Claim C1: when `force_fresh` is not requested and a stored price point for
the (uppercased symbol, provider) pair lies within the 5-minute freshness
window of now, `get_latest_price` returns that stored point tagged as
cache-sourced, the provider is not invoked, no row is persisted (the store is
unchanged) and no publish is attempted; conversely every `use_cache = false`
call invokes the provider regardless of the store's content. -/
theorem C1_cache_hit_short_circuits_and_force_fresh_fetches
    (st : Store) (symbol providerName : String) (now : Nat)
    (fetch : ProviderResult) (producerOk : Bool) (p : ProcessedPricePoint)
    (hcache : getLatestPricePoint st.pricePoints (pyUpper symbol) (some providerName) = some p)
    (hfresh : now < p.timestamp + 300) :
    getLatestPrice st symbol providerName true true now fetch producerOk =
      { result := .ok ⟨p.symbol, p.price, p.timestamp, p.provider, "cache"⟩,
        store := st, providerCalled := false, publishAttempted := false,
        publishedEvents := [] }
    ∧ ∀ (st2 : Store) (hasDb : Bool),
        (getLatestPrice st2 symbol providerName hasDb false now fetch producerOk).providerCalled = true := by
  constructor
  · simp [getLatestPrice, cacheLookup, hcache, hfresh]
  · intro st2 hasDb
    simp [getLatestPrice, cacheLookup, fetchFresh_providerCalled]

/-- Witness for C1 at a concrete store: a point aged 100 s is served from the
cache with no provider call, and the same call with `use_cache = false`
invokes the provider. -/
theorem C1_witness :
    getLatestPrice c1Store "AAPL" "alpha_vantage" true true 1100 (.err "down") true =
      { result := .ok ⟨"AAPL", 100, 1000, "alpha_vantage", "cache"⟩, store := c1Store,
        providerCalled := false, publishAttempted := false, publishedEvents := [] }
    ∧ (getLatestPrice c1Store "AAPL" "alpha_vantage" true false 1100 (.err "down") true).providerCalled = true := by
  have h := C1_cache_hit_short_circuits_and_force_fresh_fetches c1Store "AAPL" "alpha_vantage"
    1100 (.err "down") true c1Point (by decide) (by decide)
  exact ⟨h.1, h.2 c1Store true⟩

/-- Claim C2: whenever at least five price points are stored for a symbol, the
consumer's moving average is the arithmetic mean of exactly the five newest
points by timestamp — a sliding window, any older points are discarded. -/
theorem C2_moving_average_is_mean_of_five_latest
    (pts : List ProcessedPricePoint) (sym : String)
    (p1 p2 p3 p4 p5 : ProcessedPricePoint) (rest : List ProcessedPricePoint)
    (hsorted : sortByTsDesc (pointsFor pts sym none) = p1 :: p2 :: p3 :: p4 :: p5 :: rest) :
    calculateMovingAverage pts sym =
      some ((p1.price + p2.price + p3.price + p4.price + p5.price) / 5) := by
  unfold calculateMovingAverage getLastNPrices
  rw [hsorted]
  norm_num [List.take_succ_cons, List.sum_cons]
  ring_nf

/-- Witness for C2: five points with values 100, 101, 99, 102, 98 delivered in
that order average to exactly 100. -/
theorem C2_witness :
    calculateMovingAverage maStore5 "AAPL" = some 100 := by
  have h := C2_moving_average_is_mean_of_five_latest maStore5 "AAPL" (maPoint 98 50)
    (maPoint 102 40) (maPoint 99 30) (maPoint 101 20) (maPoint 100 10) [] (by decide)
  rw [h]
  norm_num [maPoint]

/-- Claim C3: for a symbol with fewer than five stored price points,
processing a delivered raw price event takes no action — whatever the
timestamp parse does: the store is unchanged (no MovingAverage row) and no
derived event is published. -/
theorem C3_below_period_takes_no_action
    (st : Store) (msg : PriceEventMsg) (sym : String) (now : Nat)
    (parseIso : String → Option String)
    (hsym : msg.symbol = some sym)
    (hfew : (pointsFor st.pricePoints sym none).length < 5) :
    processPriceEvent st msg now parseIso = (st, []) := by
  rcases msg with ⟨msym, mprice, mts⟩
  simp only [PriceEventMsg.symbol] at hsym
  subst hsym
  cases mprice with
  | none => simp [processPriceEvent, msgTruthy]
  | some q =>
    cases mts with
    | none => simp [processPriceEvent, msgTruthy]
    | some ts =>
      cases hp : parseIso ts <;>
        simp [processPriceEvent, msgTruthy, hp,
          calculateMovingAverage_eq_none _ _ hfew]

/-- Witness for C3: with only four stored points, a well-formed event for
AAPL with a parseable timestamp is processed into no state change and no
derived event. -/
theorem C3_witness :
    processPriceEvent c3Store ⟨some "AAPL", some 100, some "2025-01-01T00:00:00"⟩ 99 isoParse =
      (c3Store, []) := by
  exact C3_below_period_takes_no_action c3Store
    ⟨some "AAPL", some 100, some "2025-01-01T00:00:00"⟩ "AAPL" 99 isoParse
    (by decide) (by decide)

/-- Counterexample to claim C4 as stated: in a tick over symbols AAA and BBB
where only AAA's fetch fails, the stored job's status afterwards is `error`,
not `active` as the claim asserts (the pass still polls BBB and the in-memory
status that gates future ticks stays `active`). -/
theorem C4_counterexample :
    ((getPollingJob (pollingTick c4Store c4Job 1000 true c4Fetch).1.pollingJobs "J1").map
        PollingJobConfig.status = some "error")
    ∧ ((pollingTick c4Store c4Job 1000 true c4Fetch).1.pricePoints.map
        ProcessedPricePoint.symbol = ["BBB"])
    ∧ (pollingTick c4Store c4Job 1000 true c4Fetch).2.status = "active" := by
  decide

/-- Claim C4 (amended): a per-symbol fetch failure does not abort the job —
every symbol of the tick is still attempted and the in-memory job that gates
future ticks is returned unchanged (status still `active`) — and the failure
records an error message on the stored job, but it also sets the stored job's
status to `error` rather than leaving it `active`. -/
theorem C4_per_symbol_failure_continues_but_stores_error
    (st : Store) (job : MemJob) (now : Nat) (producerOk : Bool)
    (fetch : String → ProviderResult)
    (hactive : job.status = "active")
    (hjob : (getPollingJob st.pollingJobs job.jobId).isSome) :
    pollingTick st job now producerOk fetch = ((tickPass st job now producerOk fetch).store, job)
    ∧ (tickPass st job now producerOk fetch).attempted = job.symbols
    ∧ ((tickPass st job now producerOk fetch).failed ≠ [] →
        jobErrored (tickPass st job now producerOk fetch).store.pollingJobs job.jobId) := by
  have hex0 := updatePollingJobRunTime_isSome st job.jobId now (now + job.interval) hjob
  have hinv := pollSymbolsPass_invariant job.jobId job.provider now producerOk fetch job.symbols
    ⟨(updatePollingJobRunTime st job.jobId now (now + job.interval)).1, [], []⟩
    hex0 (by simp)
  exact ⟨by simp [pollingTick, hactive], by simpa using hinv.2.2, hinv.2.1⟩

/-- Witness for C4 (amended): with AAA failing and BBB succeeding, both
symbols are attempted and the stored job ends errored with a message. -/
theorem C4_witness :
    (tickPass c4Store c4Job 1000 true c4Fetch).attempted = ["AAA", "BBB"]
    ∧ jobErrored (tickPass c4Store c4Job 1000 true c4Fetch).store.pollingJobs "J1" := by
  have h := C4_per_symbol_failure_continues_but_stores_error c4Store c4Job 1000 true c4Fetch
    rfl (by decide)
  exact ⟨h.2.1, h.2.2 (by decide)⟩

/-- Counterexample to claim C5 as stated: stopping a completely unknown job id
with a db session returns true, not false/not-found. -/
theorem C5_counterexample :
    (stopPollingJob emptyStore [] "missing" true).2.2 = true := by
  decide

/-- Claim C5 (amended): `stop_polling_job` returns true exactly when the job
id is in the in-memory registry or a db session is supplied — so an unknown
id yields false only without a db session — and a call with a db session sets
every stored job with that id, and every in-memory job with that id, to
status `stopped`. -/
theorem C5_stop_return_value_and_stopped_status
    (st : Store) (memJobs : List MemJob) (jobId : String) :
    (∀ hasDb, (stopPollingJob st memJobs jobId hasDb).2.2 =
        (memJobs.any (fun j => j.jobId == jobId) || hasDb))
    ∧ (∀ j ∈ (stopPollingJob st memJobs jobId true).1.pollingJobs,
        j.jobId = jobId → j.status = "stopped")
    ∧ (∀ j ∈ (stopPollingJob st memJobs jobId true).2.1,
        j.jobId = jobId → j.status = "stopped") := by
  refine ⟨?_, ?_, ?_⟩
  · intro hasDb
    cases hmem : memJobs.any (fun j => j.jobId == jobId) <;> cases hasDb <;>
      simp [stopPollingJob, hmem]
  · intro j hj hid
    have hj2 : j ∈ (updatePollingJobStatus st jobId "stopped" none).1.pollingJobs := by
      revert hj
      cases hmem : memJobs.any (fun j => j.jobId == jobId) <;>
        simp [stopPollingJob, hmem]
    exact updatePollingJobStatus_rows st jobId "stopped" none j hj2 hid
  · intro j hj hid
    cases hmem : memJobs.any (fun j => j.jobId == jobId) with
    | false =>
      rw [stopPollingJob] at hj
      simp only [hmem, if_neg] at hj
      rw [List.any_eq_false] at hmem
      have := hmem j (by simpa using hj)
      simp [hid] at this
    | true =>
      rw [stopPollingJob] at hj
      simp only [hmem, if_pos, List.mem_map] at hj
      obtain ⟨a, ha, hae⟩ := hj
      by_cases hcase : (a.jobId == jobId) = true
      · rw [if_pos hcase] at hae
        rw [← hae]
      · rw [if_neg hcase] at hae
        subst hae
        simp [hid] at hcase

/-- Witness for C5 (amended): stopping the known active job J2 with a db
session returns true and marks the stored row stopped; stopping an unknown id
without a db session returns false. -/
theorem C5_witness :
    (stopPollingJob c5Store c5Mem "J2" true).2.2 = true
    ∧ (stopPollingJob c5Store c5Mem "nope" false).2.2 = false
    ∧ ∀ j ∈ (stopPollingJob c5Store c5Mem "J2" true).1.pollingJobs,
        j.jobId = "J2" → j.status = "stopped" := by
  have h1 := C5_stop_return_value_and_stopped_status c5Store c5Mem "J2"
  have h2 := C5_stop_return_value_and_stopped_status c5Store c5Mem "nope"
  exact ⟨by rw [h1.1 true]; decide, by rw [h2.1 false]; decide, h1.2.1⟩

/-- Claim C6: the poll endpoint validates the interval bounds before any
effect: intervals 29 and 3601 are rejected with the store, the in-memory
registry and the task registration untouched, while intervals 30 and 3600 are
accepted (job id returned, worker task registered, and with a db session the
job row is persisted with status `active` and `next_run = now`). -/
theorem C6_interval_bounds_validation
    (st : Store) (memJobs : List MemJob) (jobId pn : String)
    (symbols : List String) (hasDb : Bool) (now : Nat)
    (hsyms : symbols.all validSymbolFormat = true)
    (h1 : 1 ≤ symbols.length) (h10 : symbols.length ≤ 10) :
    startPollingEndpoint st memJobs jobId symbols 29 pn hasDb now =
      { result := .error "Invalid request parameters", store := st,
        memJobs := memJobs, taskRegistered := false }
    ∧ startPollingEndpoint st memJobs jobId symbols 3601 pn hasDb now =
      { result := .error "Invalid request parameters", store := st,
        memJobs := memJobs, taskRegistered := false }
    ∧ ((startPollingEndpoint st memJobs jobId symbols 30 pn hasDb now).result = .ok jobId
       ∧ (startPollingEndpoint st memJobs jobId symbols 30 pn hasDb now).taskRegistered = true
       ∧ (hasDb = true →
            getPollingJob (startPollingEndpoint st memJobs jobId symbols 30 pn hasDb now).store.pollingJobs jobId =
              some ⟨jobId, symbols.map pyUpper, 30, pn, "active", none, some now, none⟩))
    ∧ ((startPollingEndpoint st memJobs jobId symbols 3600 pn hasDb now).result = .ok jobId
       ∧ (startPollingEndpoint st memJobs jobId symbols 3600 pn hasDb now).taskRegistered = true) := by
  have hval30 : pollRequestValid symbols 30 = true := by
    simp [pollRequestValid, hsyms, h1, h10]
  have hval3600 : pollRequestValid symbols 3600 = true := by
    simp [pollRequestValid, hsyms, h1, h10]
  have hval29 : pollRequestValid symbols 29 = false := by
    simp [pollRequestValid]
  have hval3601 : pollRequestValid symbols 3601 = false := by
    simp [pollRequestValid]
  refine ⟨by simp [startPollingEndpoint, hval29], by simp [startPollingEndpoint, hval3601],
    ⟨by simp [startPollingEndpoint, hval30, startPollingJob],
     by simp [startPollingEndpoint, hval30, startPollingJob], ?_⟩,
    by simp [startPollingEndpoint, hval3600, startPollingJob],
    by simp [startPollingEndpoint, hval3600, startPollingJob]⟩
  intro hdb
  subst hdb
  simp [startPollingEndpoint, hval30, startPollingJob, savePollingJob, getPollingJob]

/-- Witness for C6: starting with one valid symbol, interval 29 registers no
task and interval 30 is accepted. -/
theorem C6_witness :
    (startPollingEndpoint emptyStore [] "J3" ["AAPL"] 29 "alpha_vantage" true 0).taskRegistered = false
    ∧ (startPollingEndpoint emptyStore [] "J3" ["AAPL"] 30 "alpha_vantage" true 0).result = .ok "J3" := by
  have h := C6_interval_bounds_validation emptyStore [] "J3" "alpha_vantage" ["AAPL"] true 0
    (by decide) (by decide) (by decide)
  exact ⟨by rw [h.1], h.2.2.1.1⟩

/-- Claim C7: when the cache is not hit and the provider fetch fails, the
whole `get_latest_price` call fails with the descriptive wrapped error and
the state is unchanged: no row is persisted and no publish is attempted. -/
theorem C7_provider_failure_changes_nothing
    (st : Store) (symbol providerName m : String) (hasDb useCache : Bool)
    (now : Nat) (producerOk : Bool)
    (hmiss : cacheLookup st symbol providerName hasDb useCache now = none) :
    getLatestPrice st symbol providerName hasDb useCache now (.err m) producerOk =
      { result := .error ("Failed to get price for " ++ pyUpper symbol ++ ": " ++ m),
        store := st, providerCalled := true, publishAttempted := false,
        publishedEvents := [] } := by
  simp [getLatestPrice, hmiss, fetchFresh]

/-- Witness for C7: against an empty store, a rate limit failure leaves the
store empty and produces the wrapped error. -/
theorem C7_witness :
    getLatestPrice emptyStore "AAPL" "alpha_vantage" true true 0 (.err "rate limit") true =
      { result := .error "Failed to get price for AAPL: rate limit",
        store := emptyStore, providerCalled := true, publishAttempted := false,
        publishedEvents := [] } := by
  exact C7_provider_failure_changes_nothing emptyStore "AAPL" "alpha_vantage" "rate limit"
    true true 0 true (by decide)

/-- Claim C8: when a live fetch succeeds and the subsequent publish fails,
the failure is swallowed: the call still returns the live price, the
persisted raw response and price point are exactly the ones persisted on a
successful publish (the store afterwards is identical in the two cases), and
no event reaches the channel. -/
theorem C8_publish_failure_swallowed_persistence_kept
    (st : Store) (symbol providerName : String) (useCache : Bool)
    (now ts : Nat) (price : ℚ)
    (hmiss : cacheLookup st symbol providerName true useCache now = none) :
    (getLatestPrice st symbol providerName true useCache now (.ok price ts) false).result =
      .ok ⟨pyUpper symbol, price, ts, providerName, "live"⟩
    ∧ (getLatestPrice st symbol providerName true useCache now (.ok price ts) false).store =
        (getLatestPrice st symbol providerName true useCache now (.ok price ts) true).store
    ∧ (getLatestPrice st symbol providerName true useCache now (.ok price ts) false).store.pricePoints =
        ⟨pyUpper symbol, price, ts, providerName, st.rawMarketData.length⟩ :: st.pricePoints
    ∧ (getLatestPrice st symbol providerName true useCache now (.ok price ts) false).store.rawMarketData =
        ⟨st.rawMarketData.length, pyUpper symbol, providerName⟩ :: st.rawMarketData
    ∧ (getLatestPrice st symbol providerName true useCache now (.ok price ts) false).publishedEvents = []
    ∧ (getLatestPrice st symbol providerName true useCache now (.ok price ts) false).publishAttempted = true := by
  refine ⟨?_, ?_, ?_, ?_, ?_, ?_⟩ <;>
    simp [getLatestPrice, hmiss, fetchFresh, saveRawMarketData, savePricePoint,
      publishPriceEvent, pyUpper_idem]

/-- Witness for C8: against an empty store with a failed publish, the live
price is returned, the point is persisted, and no event is emitted. -/
theorem C8_witness :
    (getLatestPrice emptyStore "AAPL" "alpha_vantage" true true 0 (.ok 100 50) false).result =
      .ok ⟨"AAPL", 100, 50, "alpha_vantage", "live"⟩
    ∧ (getLatestPrice emptyStore "AAPL" "alpha_vantage" true true 0 (.ok 100 50) false).store.pricePoints =
        [⟨"AAPL", 100, 50, "alpha_vantage", 0⟩]
    ∧ (getLatestPrice emptyStore "AAPL" "alpha_vantage" true true 0 (.ok 100 50) false).publishedEvents = [] := by
  have h := C8_publish_failure_swallowed_persistence_kept emptyStore "AAPL" "alpha_vantage"
    true 0 50 100 (by decide)
  refine ⟨?_, ?_, h.2.2.2.2.1⟩
  · rw [h.1]
    rfl
  · rw [h.2.2.1]
    decide

/-- Claim C9: redelivering the same well-formed raw price event twice — its
timestamp parsing successfully to `iso` — with no intervening price points,
is idempotent in value: each processing emits a derived event carrying the
same average and appends a MovingAverage row with that same value — two rows
accumulate append-only, the price points are untouched, and no error arises
(processing is total). -/
theorem C9_redelivery_idempotent_in_value
    (st : Store) (msg : PriceEventMsg) (sym ts iso : String) (q ma : ℚ)
    (now1 now2 : Nat) (parseIso : String → Option String)
    (hsym : msg.symbol = some sym) (hq : msg.price = some q) (hts : msg.timestamp = some ts)
    (hsymne : sym.isEmpty = false) (hqne : q ≠ 0) (htsne : ts.isEmpty = false)
    (hparse : parseIso ts = some iso)
    (hma : calculateMovingAverage st.pricePoints sym = some ma) :
    (processPriceEvent st msg now1 parseIso).2 = [⟨sym, ma, 5, iso, now1⟩]
    ∧ (processPriceEvent (processPriceEvent st msg now1 parseIso).1 msg now2 parseIso).2 =
        [⟨sym, ma, 5, iso, now2⟩]
    ∧ (processPriceEvent (processPriceEvent st msg now1 parseIso).1 msg now2 parseIso).1.movingAverages =
        ⟨pyUpper sym, ma, 5, now2⟩ :: ⟨pyUpper sym, ma, 5, now1⟩ :: st.movingAverages
    ∧ (processPriceEvent (processPriceEvent st msg now1 parseIso).1 msg now2 parseIso).1.pricePoints =
        st.pricePoints := by
  rcases msg with ⟨msym, mprice, mts⟩
  simp only [PriceEventMsg.symbol, PriceEventMsg.price, PriceEventMsg.timestamp] at hsym hq hts
  subst hsym hq hts
  simp [processPriceEvent, msgTruthy, hsymne, hqne, htsne, hparse, hma, saveMovingAverage]

/-- Witness for C9: with exactly five stored points averaging 100 and a
timestamp the parse oracle accepts, processing the same event twice appends
two rows both valued 100. -/
theorem C9_witness :
    (processPriceEvent c9Store ⟨some "AAPL", some 98, some "2025-01-01T00:00:00"⟩ 60 isoParse).2 =
      [⟨"AAPL", 100, 5, "2025-01-01T00:00:00", 60⟩]
    ∧ (processPriceEvent
          (processPriceEvent c9Store ⟨some "AAPL", some 98, some "2025-01-01T00:00:00"⟩ 60 isoParse).1
          ⟨some "AAPL", some 98, some "2025-01-01T00:00:00"⟩ 61 isoParse).1.movingAverages =
        [⟨"AAPL", 100, 5, 61⟩, ⟨"AAPL", 100, 5, 60⟩] := by
  have hma : calculateMovingAverage c9Store.pricePoints "AAPL" = some 100 := by
    unfold calculateMovingAverage getLastNPrices
    rw [show sortByTsDesc (pointsFor c9Store.pricePoints "AAPL" none) =
      [maPoint 98 50, maPoint 102 40, maPoint 99 30, maPoint 101 20, maPoint 100 10] from
      by decide]
    norm_num [maPoint]
  have h := C9_redelivery_idempotent_in_value c9Store
    ⟨some "AAPL", some 98, some "2025-01-01T00:00:00"⟩
    "AAPL" "2025-01-01T00:00:00" "2025-01-01T00:00:00" 98 100 60 61 isoParse
    rfl rfl rfl (by decide) (by decide) (by decide) (by decide) hma
  refine ⟨h.1, ?_⟩
  rw [h.2.2.1]
  decide

/-- Claim C10: the consumer's malformed-event check uses Python truthiness,
so an event whose price is exactly 0, or whose symbol is the empty string, is
silently skipped — no row persisted, no derived event — even though all three
fields are present; the guard fires before the timestamp parse, so this holds
for every parse behaviour. -/
theorem C10_truthiness_drops_zero_price_and_empty_symbol
    (st : Store) (sym ts : String) (q : ℚ) (now : Nat)
    (parseIso : String → Option String) :
    processPriceEvent st ⟨some sym, some 0, some ts⟩ now parseIso = (st, [])
    ∧ processPriceEvent st ⟨some "", some q, some ts⟩ now parseIso = (st, []) := by
  constructor <;> simp [processPriceEvent, msgTruthy, String.isEmpty_iff]

end MarketData
